import Mathlib

/-!
Verification of the snapshot_helper overlay engine (src/snap_tool.py).

The Python source is shallowly embedded below.  Coordinates are the integer
coordinates of Qt `QPoint`s; arithmetic that Python performs on floats
(true division, `math.sqrt`) is modelled exactly over `ℚ` (and `ℝ` for the
value of a square root).  A comparison `math.sqrt d <= r` with `d ≥ 0` is
modelled by the exact rational equivalence `0 ≤ r ∧ d ≤ r ^ 2`, and
`math.sqrt d < r` by `0 < r ∧ d < r ^ 2`; both are recorded in the
`sqrtLe` / `sqrtLt` / `leSqrt` helpers.  Python code that would raise a
`TypeError` (a tuple-shaped record whose payload does not have the shape a
branch expects) is modelled by `Option`, with `none` standing for a raised
exception.

Qt semantics used by the embedding (PyQt6 / Qt 6 integer `QRect`):
a `QRect` stores `x1 y1 x2 y2` with `width = x2 - x1 + 1` and
`height = y2 - y1 + 1`; `QRect(topLeft, bottomRight)` stores the two
points verbatim; `QRect(x, y, w, h)` stores `x2 = x + w - 1`;
`normalized()` swaps the pair of x (resp. y) coordinates when they are in
decreasing order; `adjusted(a, b, c, d)` adds the offsets to the stored
coordinates; `contains(p)` is inclusive between the min and max stored
coordinates; `center()` uses C++ integer division (truncation toward
zero, `Int.tdiv`).
-/

/-- Integer point, the embedding of a Qt `QPoint`. -/
structure Pt where
  x : Int
  y : Int
deriving DecidableEq, Repr

/-- Rational x coordinate of a point (Python promotes the int to float). -/
def Pt.qx (p : Pt) : ℚ := (p.x : ℚ)

/-- Rational y coordinate of a point. -/
def Pt.qy (p : Pt) : ℚ := (p.y : ℚ)

/-- One element of a shape record's `data` list: the Python lists hold
`QPoint`s, and for text records the second element is the string content. -/
inductive Datum where
  | pt (p : Pt)
  | txt (s : String)
deriving DecidableEq, Repr

/-- A persisted shape record: the Python tuple
`(shape_type, color, size, data)` stored in `self.drawing_paths`.
The color is opaque to every algorithm verified here and is carried as a
token. -/
structure ShapeRec where
  kind : String
  color : Int
  size : Int
  data : List Datum
deriving DecidableEq, Repr

/-- Integer `QRect` as stored by Qt: the four coordinates `x1 y1 x2 y2`. -/
structure QRectI where
  x1 : Int
  y1 : Int
  x2 : Int
  y2 : Int
deriving DecidableEq, Repr

/-- Embedding of `QRect(topLeft, bottomRight)`: the two corner points are
stored verbatim. -/
def QRectI.ofPoints (a b : Pt) : QRectI := ⟨a.x, a.y, b.x, b.y⟩

/-- Embedding of `QRect(x, y, w, h)`: Qt stores `x2 = x + w - 1`,
`y2 = y + h - 1`. -/
def QRectI.ofXYWH (x y w h : Int) : QRectI := ⟨x, y, x + w - 1, y + h - 1⟩

/-- Qt `QRect.width()`: `x2 - x1 + 1`. -/
def QRectI.width (r : QRectI) : Int := r.x2 - r.x1 + 1

/-- Qt `QRect.height()`: `y2 - y1 + 1`. -/
def QRectI.height (r : QRectI) : Int := r.y2 - r.y1 + 1

/-- Qt 6 `QRect.normalized()`: swaps the x pair when `x2 < x1` and the y
pair when `y2 < y1`, i.e. sorts each coordinate pair. -/
def QRectI.normalized (r : QRectI) : QRectI :=
  ⟨min r.x1 r.x2, min r.y1 r.y2, max r.x1 r.x2, max r.y1 r.y2⟩

/-- Qt `QRect.adjusted(dx1, dy1, dx2, dy2)`. -/
def QRectI.adjusted (r : QRectI) (dx1 dy1 dx2 dy2 : Int) : QRectI :=
  ⟨r.x1 + dx1, r.y1 + dy1, r.x2 + dx2, r.y2 + dy2⟩

/-- Qt `QRect.contains(pos)` (non-proper): inclusive containment between
the sorted coordinate pairs. -/
def QRectI.containsPt (r : QRectI) (p : Pt) : Bool :=
  decide (min r.x1 r.x2 ≤ p.x ∧ p.x ≤ max r.x1 r.x2 ∧
    min r.y1 r.y2 ≤ p.y ∧ p.y ≤ max r.y1 r.y2)

/-- Qt `QRect.center().x()`: `(x1 + x2) / 2` with C++ integer division
(truncation toward zero). -/
def QRectI.centerX (r : QRectI) : Int := Int.tdiv (r.x1 + r.x2) 2

/-- Qt `QRect.center().y()`. -/
def QRectI.centerY (r : QRectI) : Int := Int.tdiv (r.y1 + r.y2) 2

/-- Exact model of the float comparison `math.sqrt q <= c` for `q ≥ 0`:
equivalent to `0 ≤ c ∧ q ≤ c ^ 2`. -/
def sqrtLe (q c : ℚ) : Bool := decide (0 ≤ c ∧ q ≤ c ^ 2)

/-- Exact model of the float comparison `math.sqrt q < c` for `q ≥ 0`:
equivalent to `0 < c ∧ q < c ^ 2`. -/
def sqrtLt (q c : ℚ) : Bool := decide (0 < c ∧ q < c ^ 2)

/-- Exact model of the float comparison `c <= math.sqrt q` for `q ≥ 0`:
equivalent to `c ≤ 0 ∨ c ^ 2 ≤ q`. -/
def leSqrt (c q : ℚ) : Bool := decide (c ≤ 0 ∨ c ^ 2 ≤ q)

/-- Square of the value returned by the closure
`point_to_segment_distance(px, py, x1, y1, x2, y2)` inside `_erase_paths`
(snap_tool.py lines 1769-1779).  The closure returns the square root of
this quantity. -/
def seg_dist_sq (px py x1 y1 x2 y2 : ℚ) : ℚ :=
  let dx := x2 - x1
  let dy := y2 - y1
  if dx = 0 ∧ dy = 0 then (px - x1) ^ 2 + (py - y1) ^ 2
  else
    let t := max 0 (min 1 (((px - x1) * dx + (py - y1) * dy) / (dx * dx + dy * dy)))
    (px - (x1 + t * dx)) ^ 2 + (py - (y1 + t * dy)) ^ 2

/-- Square of the value returned by the method
`_point_to_line_distance(point, line_start, line_end)`
(snap_tool.py lines 1335-1355); it differs from the closure only in
guarding on `line_len_sq == 0` instead of `dx == 0 and dy == 0`. -/
def line_dist_sq (p a b : Pt) : ℚ :=
  let lineLenSq := (b.qx - a.qx) ^ 2 + (b.qy - a.qy) ^ 2
  if lineLenSq = 0 then (p.qx - a.qx) ^ 2 + (p.qy - a.qy) ^ 2
  else
    let t := max 0 (min 1 (((p.qx - a.qx) * (b.qx - a.qx) + (p.qy - a.qy) * (b.qy - a.qy)) / lineLenSq))
    (p.qx - (a.qx + t * (b.qx - a.qx))) ^ 2 + (p.qy - (a.qy + t * (b.qy - a.qy))) ^ 2

/-- Value returned by `_point_to_line_distance`: the square root of
`line_dist_sq`, modelled over the reals. -/
noncomputable def point_to_line_distance (p a b : Pt) : ℝ :=
  Real.sqrt ((line_dist_sq p a b : ℚ) : ℝ)

/-- Value returned by the closure `point_to_segment_distance` of
`_erase_paths`, applied to the coordinates of the three points. -/
noncomputable def point_to_segment_distance (p a b : Pt) : ℝ :=
  Real.sqrt ((seg_dist_sq p.qx p.qy a.qx a.qy b.qx b.qy : ℚ) : ℝ)

/-- Euclidean distance between two integer points. -/
noncomputable def euclid_dist (p a : Pt) : ℝ :=
  Real.sqrt (((p.qx - a.qx) ^ 2 + (p.qy - a.qy) ^ 2 : ℚ) : ℝ)

/-- The point `p` lies on the closed segment from `a` to `b` (the property
side of the spec sentence about `pointToSegmentDistance`). -/
def onSegment (p a b : Pt) : Prop :=
  ∃ t : ℚ, 0 ≤ t ∧ t ≤ 1 ∧
    p.qx = a.qx + t * (b.qx - a.qx) ∧ p.qy = a.qy + t * (b.qy - a.qy)

/-- Half x extent plus tolerance used by the ellipse branch of
`_point_in_shape`: `a = rect.width() / 2 + tolerance` with `tolerance = 8`,
computed on the normalized rect of the two stored corners. -/
def circle_hit_a (c1 c2 : Pt) : ℚ :=
  ((QRectI.ofPoints c1 c2).normalized.width : ℚ) / 2 + 8

/-- Half y extent plus tolerance used by the ellipse branch of
`_point_in_shape`: `b = rect.height() / 2 + tolerance`. -/
def circle_hit_b (c1 c2 : Pt) : ℚ :=
  ((QRectI.ofPoints c1 c2).normalized.height : ℚ) / 2 + 8

/-- Freehand branch of `_point_in_shape`: walks consecutive pairs of the
path, returning true at the first segment whose distance to `pos` is
below `tolerance * 1.5 = 12`; a pair containing a non-point is a Python
`TypeError` (`none`), reached only if no earlier segment already hit. -/
def penHit (pos : Pt) : List Datum → Option Bool
  | Datum.pt p1 :: Datum.pt p2 :: rest =>
      if sqrtLt (line_dist_sq pos p1 p2) (8 * (3 / 2)) then some true
      else penHit pos (Datum.pt p2 :: rest)
  | _ :: _ :: _ => none
  | _ => some false

/-- Text branch of `_point_in_shape`: the estimated glyph box expanded by
the tolerance, `QRect(x - 8, y - th - 8, tw + 16, th + 16).contains(pos)`
where `(tw, th)` is the font-metrics measurement of the content. -/
def text_hit (fm : Int → String → Int × Int) (pos tp : Pt) (t : String) (size : Int) : Bool :=
  let tw := (fm size t).1
  let th := (fm size t).2
  (QRectI.ofXYWH (tp.x - 8) (tp.y - th - 8) (tw + 8 * 2) (th + 8 * 2)).containsPt pos

/-- Rectangle branch of `_point_in_shape`: the normalized corner rect
adjusted by the tolerance contains the position. -/
def rect_hit (pos c1 c2 : Pt) : Bool :=
  (((QRectI.ofPoints c1 c2).normalized).adjusted (-8) (-8) 8 8).containsPt pos

/-- Ellipse branch of `_point_in_shape`: false under the `a == 0 or b == 0`
guard, otherwise the normalized-distance test
`dx²/a² + dy²/b² ≤ 1` about the integer center of the normalized rect. -/
def circle_hit (pos c1 c2 : Pt) : Bool :=
  let rect := (QRectI.ofPoints c1 c2).normalized
  let a := circle_hit_a c1 c2
  let b := circle_hit_b c1 c2
  if a = 0 ∨ b = 0 then false
  else
    let dx : ℚ := (pos.x : ℚ) - (rect.centerX : ℚ)
    let dy : ℚ := (pos.y : ℚ) - (rect.centerY : ℚ)
    decide (dx * dx / (a * a) + dy * dy / (b * b) ≤ 1)

/-- Line / arrow branch of `_point_in_shape` (and one freehand segment):
`_point_to_line_distance(pos, p1, p2) < tolerance * 1.5`. -/
def segment_hit (pos p1 p2 : Pt) : Bool :=
  sqrtLt (line_dist_sq pos p1 p2) (8 * (3 / 2))

/-- Embedding of `_point_in_shape(pos, shape_type, data, size)`
(snap_tool.py lines 1283-1333).  `fm` supplies the external
`QFontMetrics` measurement `(horizontalAdvance text, height)` for a font
of the given size; `none` models a Python `TypeError` from a payload
whose elements do not have the type a branch accesses. -/
def point_in_shape (fm : Int → String → Int × Int) (pos : Pt)
    (shapeType : String) (data : List Datum) (size : Int) : Option Bool :=
  if shapeType = "text" ∧ data.length = 2 then
    match data with
    | [Datum.pt tp, Datum.txt t] => some (text_hit fm pos tp t size)
    | _ => none
  else if shapeType = "rect" ∧ data.length = 2 then
    match data with
    | [Datum.pt c1, Datum.pt c2] => some (rect_hit pos c1 c2)
    | _ => none
  else if shapeType = "circle" ∧ data.length = 2 then
    match data with
    | [Datum.pt c1, Datum.pt c2] => some (circle_hit pos c1 c2)
    | _ => none
  else if (shapeType = "arrow" ∨ shapeType = "line") ∧ data.length = 2 then
    match data with
    | [Datum.pt p1, Datum.pt p2] => some (segment_hit pos p1 p2)
    | _ => none
  else if shapeType = "pen" ∧ 1 < data.length then
    penHit pos data
  else some false

/-- One eraser-point-versus-segment test of `_erase_paths`:
`point_to_segment_distance(...) <= erase_radius`. -/
def eraserSegHit (r : ℚ) (e : Pt) (x1 y1 x2 y2 : ℚ) : Bool :=
  sqrtLe (seg_dist_sq e.qx e.qy x1 y1 x2 y2) r

/-- Freehand branch of `path_intersects_eraser`: for each consecutive pair
of the stroke, tests every eraser point; with an empty eraser path the
inner loop never runs, so a malformed pair is only a `TypeError` when the
eraser path is non-empty. -/
def penEraseHit (r : ℚ) (ep : List Pt) : List Datum → Option Bool
  | d1 :: d2 :: rest =>
      match ep with
      | [] => penEraseHit r ep (d2 :: rest)
      | _ :: _ =>
          match d1, d2 with
          | Datum.pt p1, Datum.pt p2 =>
              if ep.any fun e => eraserSegHit r e p1.qx p1.qy p2.qx p2.qy then some true
              else penEraseHit r ep (d2 :: rest)
          | _, _ => none
  | _ => some false

/-- The four border segments `(top, right, bottom, left)` tested by the
rectangle branch of `_erase_paths`, taken from the unnormalized
`QRect(data[0], data[1])`. -/
def rectEraseEdges (c1 c2 : Pt) : List (ℚ × ℚ × ℚ × ℚ) :=
  let rect := QRectI.ofPoints c1 c2
  [ ((rect.x1 : ℚ), (rect.y1 : ℚ), (rect.x2 : ℚ), (rect.y1 : ℚ)),
    ((rect.x2 : ℚ), (rect.y1 : ℚ), (rect.x2 : ℚ), (rect.y2 : ℚ)),
    ((rect.x2 : ℚ), (rect.y2 : ℚ), (rect.x1 : ℚ), (rect.y2 : ℚ)),
    ((rect.x1 : ℚ), (rect.y2 : ℚ), (rect.x1 : ℚ), (rect.y1 : ℚ)) ]

/-- Ellipse-boundary test of `_erase_paths` for one eraser point: the
source computes `abs(sqrt q - 1.0) * max rx ry <= erase_radius` with
`q = (dx/rx)^2 + (dy/ry)^2`; under the guard `rx > 0 and ry > 0` this is
exactly `sqrt q ≤ 1 + r/m ∧ 1 - r/m ≤ sqrt q` for `m = max rx ry`, which
is what the two square-root-free comparisons below encode. -/
def circleEraseCond (r rx ry cx cy : ℚ) (e : Pt) : Bool :=
  let q := ((e.qx - cx) / rx) ^ 2 + ((e.qy - cy) / ry) ^ 2
  let m := max rx ry
  sqrtLe q (1 + r / m) && leSqrt (1 - r / m) q

/-- Arrow / line branch of `path_intersects_eraser`: tests every eraser
point against the single segment; coordinates of the endpoints are only
read when the eraser path is non-empty. -/
def segEraseHit (r : ℚ) (ep : List Pt) (d0 d1 : Datum) : Option Bool :=
  match ep with
  | [] => some false
  | _ :: _ =>
      match d0, d1 with
      | Datum.pt p1, Datum.pt p2 =>
          some (ep.any fun e => eraserSegHit r e p1.qx p1.qy p2.qx p2.qy)
      | _, _ => none

/-- Text branch of `path_intersects_eraser`: Euclidean distance from each
eraser point to the anchor `data[0]`, within `erase_radius + 30`. -/
def textEraseHit (r : ℚ) (ep : List Pt) (d0 : Datum) : Option Bool :=
  match ep with
  | [] => some false
  | _ :: _ =>
      match d0 with
      | Datum.pt tp =>
          some (ep.any fun e => sqrtLe ((e.qx - tp.qx) ^ 2 + (e.qy - tp.qy) ^ 2) (r + 30))
      | _ => none

/-- Rectangle branch of `path_intersects_eraser`: some eraser point within
the radius of one of the four border segments. -/
def rectEraseHit (r : ℚ) (ep : List Pt) (c1 c2 : Pt) : Bool :=
  (rectEraseEdges c1 c2).any fun edge =>
    ep.any fun e => eraserSegHit r e edge.1 edge.2.1 edge.2.2.1 edge.2.2.2

/-- Ellipse branch of `path_intersects_eraser`: under the
`radius_x > 0 and radius_y > 0` guard, some eraser point near the ellipse
boundary; the center is the float midpoint of the stored (unnormalized)
corners and the radii are half the absolute width / height. -/
def circleEraseHit (r : ℚ) (ep : List Pt) (c1 c2 : Pt) : Bool :=
  let rect := QRectI.ofPoints c1 c2
  let cx : ℚ := ((rect.x1 : ℚ) + (rect.x2 : ℚ)) / 2
  let cy : ℚ := ((rect.y1 : ℚ) + (rect.y2 : ℚ)) / 2
  let rx : ℚ := |(rect.width : ℚ)| / 2
  let ry : ℚ := |(rect.height : ℚ)| / 2
  decide (0 < rx ∧ 0 < ry) && ep.any (circleEraseCond r rx ry cx cy)

/-- Embedding of the closure `path_intersects_eraser(shape_type, data)` of
`_erase_paths` (snap_tool.py lines 1782-1864), with the eraser radius `r`
as an explicit parameter. -/
def path_intersects_eraser (r : ℚ) (ep : List Pt)
    (shapeType : String) (data : List Datum) : Option Bool :=
  if shapeType = "pen" ∧ 1 < data.length then penEraseHit r ep data
  else if shapeType = "rect" ∧ data.length = 2 then
    match data with
    | [Datum.pt c1, Datum.pt c2] => some (rectEraseHit r ep c1 c2)
    | _ => none
  else if shapeType = "circle" ∧ data.length = 2 then
    match data with
    | [Datum.pt c1, Datum.pt c2] => some (circleEraseHit r ep c1 c2)
    | _ => none
  else if shapeType = "arrow" ∧ data.length = 2 then
    match data with
    | [d0, d1] => segEraseHit r ep d0 d1
    | _ => none
  else if shapeType = "line" ∧ data.length = 2 then
    match data with
    | [d0, d1] => segEraseHit r ep d0 d1
    | _ => none
  else if shapeType = "text" ∧ data.length = 2 then
    match data with
    | [d0, _] => textEraseHit r ep d0
    | _ => none
  else some false

/-- The batch filter of `_erase_paths` (snap_tool.py lines 1866-1870):
keeps exactly the records for which `path_intersects_eraser` is false,
preserving order; a `TypeError` while evaluating the predicate aborts the
whole comprehension (`none`). -/
def erase_filter (r : ℚ) (ep : List Pt) : List ShapeRec → Option (List ShapeRec)
  | [] => some []
  | item :: rest => do
      let b ← path_intersects_eraser r ep item.kind item.data
      let rest2 ← erase_filter r ep rest
      pure (if b then rest2 else item :: rest2)

/-- Embedding of `_erase_paths(eraser_path)`: the eraser radius is
`erase_radius = self.current_width * 3`. -/
def erase_paths (w : Int) (ep : List Pt) (ps : List ShapeRec) : Option (List ShapeRec) :=
  erase_filter ((w * 3 : Int) : ℚ) ep ps

/-- Session fields of `mouseReleaseEvent` read by its drawing branch. -/
structure DrawState where
  tool : String
  color : Int
  width : Int
  currentPath : List Pt
  drawStartPos : Option Pt
  paths : List ShapeRec
deriving Repr

/-- Drawing branch of `mouseReleaseEvent` (snap_tool.py lines 1733-1758):
the value of `self.drawing_paths` after releasing the pointer while
`is_drawing`.  The eraser and pen act only when the recorded path has
more than one point; the two-endpoint tools commit `[start, last]`. -/
def release_drawing (st : DrawState) : Option (List ShapeRec) :=
  if st.tool = "eraser" ∧ 1 < st.currentPath.length then
    erase_paths st.width st.currentPath st.paths
  else if st.tool = "pen" ∧ 1 < st.currentPath.length then
    some (st.paths ++ [⟨"pen", st.color, st.width, st.currentPath.map Datum.pt⟩])
  else if (st.tool = "rect" ∨ st.tool = "circle" ∨ st.tool = "arrow" ∨ st.tool = "line")
      ∧ st.drawStartPos.isSome ∧ st.currentPath ≠ [] then
    match st.drawStartPos, st.currentPath.getLast? with
    | some s, some last =>
        some (st.paths ++ [⟨st.tool, st.color, st.width, [Datum.pt s, Datum.pt last]⟩])
    | _, _ => some st.paths
  else some st.paths

/-- Embedding of `_get_selection_rect` (snap_tool.py lines 1471-1482) for
a session whose two anchor points are set:
`QRect(min x, min y, abs dx, abs dy)`. -/
def get_selection_rect (startPos endPos : Pt) : QRectI :=
  QRectI.ofXYWH (min startPos.x endPos.x) (min startPos.y endPos.y)
    |endPos.x - startPos.x| |endPos.y - startPos.y|

/-- Outcome of releasing the pointer while selecting. -/
inductive SelOutcome where
  | editing (rect : QRectI)
  | windowBound (selStart selEnd : Pt) (windowId : Int)
  | closed
deriving DecidableEq, Repr

/-- Selecting branch of `mouseReleaseEvent` (snap_tool.py lines
1696-1720): commit to editing when the normalized selection is wider and
taller than 5, else adopt the hovered window rectangle (marking the
session window-bound via `selected_window_id`), else close. -/
def release_selecting (startPos endPos : Pt) (hovered : Option (QRectI × Int)) : SelOutcome :=
  let rect := get_selection_rect startPos endPos
  if 5 < rect.width ∧ 5 < rect.height then SelOutcome.editing rect
  else
    match hovered with
    | some (wr, wid) => SelOutcome.windowBound ⟨wr.x1, wr.y1⟩ ⟨wr.x2, wr.y2⟩ wid
    | none => SelOutcome.closed

/-- Embedding of `_sync_dpr_with_capture(pixel_width, pixel_height)`
(snap_tool.py lines 192-210): returns the value of `self.dpr` after the
call, with the window's logical size and the current `self.dpr` passed
explicitly. -/
def sync_dpr_with_capture (pixelWidth pixelHeight logicalWidth logicalHeight : Int)
    (dpr : ℚ) : ℚ :=
  if logicalWidth ≤ 0 ∨ logicalHeight ≤ 0 then dpr
  else
    let dprX : ℚ := (pixelWidth : ℚ) / (logicalWidth : ℚ)
    let dprY : ℚ := (pixelHeight : ℚ) / (logicalHeight : ℚ)
    if dprX ≤ 0 ∨ dprY ≤ 0 then dpr
    else
      let effectiveDpr := (dprX + dprY) / 2
      if 1 / 100 < |effectiveDpr - dpr| then effectiveDpr else dpr

/-- Modelled from the spec: the `calibrate` contract exactly as claim C5
words it — a no-op only when a logical dimension is nonpositive,
otherwise the average scale is adopted if and only if it differs from the
current scale by more than 0.01.  Used to compare the spec's words with
`sync_dpr_with_capture`. -/
def calibrate_spec (pixelWidth pixelHeight logicalWidth logicalHeight : Int)
    (dpr : ℚ) : ℚ :=
  if logicalWidth ≤ 0 ∨ logicalHeight ≤ 0 then dpr
  else
    let scaleAvg := ((pixelWidth : ℚ) / (logicalWidth : ℚ) +
      (pixelHeight : ℚ) / (logicalHeight : ℚ)) / 2
    if 1 / 100 < |scaleAvg - dpr| then scaleAvg else dpr

/-- Shift of one freehand path element by the drag delta, as done by the
comprehension `[QPoint(p.x() + dx, p.y() + dy) for p in data]` of
`_move_shape`; a non-point element is a Python `TypeError`. -/
def shiftDatum (dx dy : Int) : Datum → Option Datum
  | Datum.pt p => some (Datum.pt ⟨p.x + dx, p.y + dy⟩)
  | Datum.txt _ => none

/-- Embedding of `_move_shape`'s update of a shape's `data` for a drag
delta `(dx, dy)` (snap_tool.py lines 1383-1402): text shifts its anchor,
the two-corner kinds shift both corners, freehand shifts every point, any
other record is stored back unchanged. -/
def move_shape_data (shapeType : String) (data : List Datum) (dx dy : Int) : Option (List Datum) :=
  if shapeType = "text" ∧ data.length = 2 then
    match data with
    | Datum.pt p :: rest => some (Datum.pt ⟨p.x + dx, p.y + dy⟩ :: rest)
    | _ => none
  else if (shapeType = "rect" ∨ shapeType = "circle" ∨ shapeType = "arrow" ∨ shapeType = "line")
      ∧ data.length = 2 then
    match data with
    | [Datum.pt p, Datum.pt q] =>
        some [Datum.pt ⟨p.x + dx, p.y + dy⟩, Datum.pt ⟨q.x + dx, q.y + dy⟩]
    | _ => none
  else if shapeType = "pen" ∧ 0 < data.length then
    data.mapM (shiftDatum dx dy)
  else some data

/-- Text-entry session state: the fields of the overlay read and written
by `_show_text_input`, `_commit_text_editing` and the `text_editing`
branch of `keyPressEvent`.  While `editing` is true, `pos` is the click
point recorded by `_show_text_input` (the source keeps it in
`self.text_editing_pos`, which is `None` exactly when no entry is
active). -/
structure TextSession where
  editing : Bool
  pos : Pt
  content : String
  color : Int
  fontSize : Int
  paths : List ShapeRec
deriving Repr

/-- Embedding of `_commit_text_editing` (snap_tool.py lines 1429-1446):
appends one text record when a non-empty entry is active, then leaves
text mode. -/
def commit_text_editing (s : TextSession) : TextSession :=
  let paths2 :=
    if s.editing ∧ s.content ≠ "" then
      s.paths ++ [⟨"text", s.color, s.fontSize, [Datum.pt s.pos, Datum.txt s.content]⟩]
    else s.paths
  { s with paths := paths2, editing := false, content := "" }

/-- Embedding of `_show_text_input(pos)` (snap_tool.py lines 1404-1421):
commits any entry in progress, then starts a fresh one at the click
point. -/
def show_text_input (p : Pt) (s : TextSession) : TextSession :=
  let s1 := if s.editing then commit_text_editing s else s
  { s1 with editing := true, pos := p, content := "" }

/-- A key event as seen by `keyPressEvent`: `char` carries `event.text()`
together with the value of its `isprintable()` (an external Unicode
classification). -/
inductive Key where
  | escape
  | enter
  | backspace
  | char (text : String) (printable : Bool)

/-- The `if self.text_editing:` branch of `keyPressEvent` (snap_tool.py
lines 1875-1899): Escape discards, Enter commits, Backspace drops the
last character, printable text is appended. -/
def key_press_text_editing (k : Key) (s : TextSession) : TextSession :=
  match k with
  | Key.escape => { s with editing := false, content := "" }
  | Key.enter => commit_text_editing s
  | Key.backspace =>
      if s.content ≠ "" then { s with content := s.content.dropRight 1 } else s
  | Key.char text printable =>
      if text ≠ "" ∧ printable then { s with content := s.content ++ text } else s

/-! ### Helper lemmas -/

lemma sq_add_sq_eq_zero_iff (x y : ℚ) : x ^ 2 + y ^ 2 = 0 ↔ x = 0 ∧ y = 0 := by
  constructor
  · intro h
    have hx : x ^ 2 = 0 := le_antisymm (by nlinarith [sq_nonneg y]) (sq_nonneg x)
    have hy : y ^ 2 = 0 := le_antisymm (by nlinarith [sq_nonneg x]) (sq_nonneg y)
    exact ⟨(pow_eq_zero_iff (by norm_num : (2 : ℕ) ≠ 0)).mp hx,
      (pow_eq_zero_iff (by norm_num : (2 : ℕ) ≠ 0)).mp hy⟩
  · rintro ⟨rfl, rfl⟩
    ring

lemma seg_dist_sq_eq_line_dist_sq (p a b : Pt) :
    seg_dist_sq p.qx p.qy a.qx a.qy b.qx b.qy = line_dist_sq p a b := by
  simp only [seg_dist_sq, line_dist_sq]
  have hiff : (b.qx - a.qx = 0 ∧ b.qy - a.qy = 0) ↔
      (b.qx - a.qx) ^ 2 + (b.qy - a.qy) ^ 2 = 0 := (sq_add_sq_eq_zero_iff _ _).symm
  by_cases h : b.qx - a.qx = 0 ∧ b.qy - a.qy = 0
  · rw [if_pos h, if_pos (hiff.mp h)]
  · rw [if_neg h, if_neg (fun hc => h (hiff.mpr hc))]
    have hden : (b.qx - a.qx) * (b.qx - a.qx) + (b.qy - a.qy) * (b.qy - a.qy)
        = (b.qx - a.qx) ^ 2 + (b.qy - a.qy) ^ 2 := by ring
    rw [hden]

lemma line_dist_sq_nonneg (p a b : Pt) : 0 ≤ line_dist_sq p a b := by
  simp only [line_dist_sq]
  split <;> positivity

lemma line_dist_sq_eq_zero_iff (p a b : Pt) :
    line_dist_sq p a b = 0 ↔ onSegment p a b := by
  simp only [line_dist_sq, onSegment]
  by_cases h : (b.qx - a.qx) ^ 2 + (b.qy - a.qy) ^ 2 = 0
  · rw [if_pos h]
    obtain ⟨hx, hy⟩ := (sq_add_sq_eq_zero_iff _ _).mp h
    constructor
    · intro h0
      obtain ⟨hpx, hpy⟩ := (sq_add_sq_eq_zero_iff _ _).mp h0
      exact ⟨0, le_refl 0, by norm_num, by rw [hx]; linarith, by rw [hy]; linarith⟩
    · rintro ⟨t, _, _, hex, hey⟩
      rw [sq_add_sq_eq_zero_iff]
      constructor
      · rw [hex, hx]; ring
      · rw [hey, hy]; ring
  · rw [if_neg h]
    set X := b.qx - a.qx with hX
    set Y := b.qy - a.qy with hY
    have hD : 0 < X ^ 2 + Y ^ 2 := lt_of_le_of_ne (by positivity) (Ne.symm h)
    constructor
    · intro h0
      obtain ⟨hpx, hpy⟩ := (sq_add_sq_eq_zero_iff _ _).mp h0
      refine ⟨max 0 (min 1 (((p.qx - a.qx) * X + (p.qy - a.qy) * Y) / (X ^ 2 + Y ^ 2))),
        le_max_left _ _, max_le zero_le_one (min_le_left _ _), by linarith, by linarith⟩
    · rintro ⟨t, ht0, ht1, hex, hey⟩
      have hnum : (p.qx - a.qx) * X + (p.qy - a.qy) * Y = t * (X ^ 2 + Y ^ 2) := by
        rw [hex, hey]; ring
      have hs : ((p.qx - a.qx) * X + (p.qy - a.qy) * Y) / (X ^ 2 + Y ^ 2) = t := by
        rw [hnum, mul_div_assoc, div_self (ne_of_gt hD), mul_one]
      rw [hs, min_eq_right ht1, max_eq_right ht0, sq_add_sq_eq_zero_iff]
      constructor
      · rw [hex]; ring
      · rw [hey]; ring

lemma sqrtLe_iff (q c : ℚ) : sqrtLe q c = true ↔ Real.sqrt (q : ℝ) ≤ (c : ℝ) := by
  rw [sqrtLe, decide_eq_true_eq, Real.sqrt_le_iff]
  rw [show ((q : ℝ) ≤ (c : ℝ) ^ 2 ↔ q ≤ c ^ 2) from by exact_mod_cast Iff.rfl,
    show ((0 : ℝ) ≤ (c : ℝ) ↔ 0 ≤ c) from by exact_mod_cast Iff.rfl]

lemma sqrtLt_iff (q c : ℚ) (hq : 0 ≤ q) : sqrtLt q c = true ↔ Real.sqrt (q : ℝ) < (c : ℝ) := by
  rw [sqrtLt, decide_eq_true_eq]
  constructor
  · rintro ⟨h1, h2⟩
    rw [Real.sqrt_lt (by exact_mod_cast hq) (by exact_mod_cast h1.le)]
    exact_mod_cast h2
  · intro h
    have hc : (0 : ℝ) < (c : ℝ) := lt_of_le_of_lt (Real.sqrt_nonneg _) h
    rw [Real.sqrt_lt (by exact_mod_cast hq) hc.le] at h
    exact ⟨by exact_mod_cast hc, by exact_mod_cast h⟩

lemma leSqrt_iff (c q : ℚ) (hq : 0 ≤ q) : leSqrt c q = true ↔ (c : ℝ) ≤ Real.sqrt (q : ℝ) := by
  rw [leSqrt, decide_eq_true_eq]
  constructor
  · rintro (h | h)
    · exact le_trans (by exact_mod_cast h) (Real.sqrt_nonneg _)
    · exact Real.le_sqrt_of_sq_le (by exact_mod_cast h)
  · intro h
    rcases le_or_lt c 0 with hc | hc
    · exact Or.inl hc
    · right
      rw [Real.le_sqrt (by exact_mod_cast hc.le) (by exact_mod_cast hq)] at h
      exact_mod_cast h

lemma pie_pen (r : ℚ) (ep : List Pt) (data : List Datum) (h : 1 < data.length) :
    path_intersects_eraser r ep "pen" data = penEraseHit r ep data := by
  rw [path_intersects_eraser.eq_def,
    if_pos (show ("pen" : String) = "pen" ∧ 1 < data.length from ⟨rfl, h⟩)]

lemma pie_rect (r : ℚ) (ep : List Pt) (c1 c2 : Pt) :
    path_intersects_eraser r ep "rect" [Datum.pt c1, Datum.pt c2] =
      some (rectEraseHit r ep c1 c2) := rfl

lemma pie_circle (r : ℚ) (ep : List Pt) (c1 c2 : Pt) :
    path_intersects_eraser r ep "circle" [Datum.pt c1, Datum.pt c2] =
      some (circleEraseHit r ep c1 c2) := rfl

lemma pie_arrow (r : ℚ) (ep : List Pt) (d0 d1 : Datum) :
    path_intersects_eraser r ep "arrow" [d0, d1] = segEraseHit r ep d0 d1 := rfl

lemma pie_line (r : ℚ) (ep : List Pt) (d0 d1 : Datum) :
    path_intersects_eraser r ep "line" [d0, d1] = segEraseHit r ep d0 d1 := rfl

lemma pie_text_bridge (r : ℚ) (ep : List Pt) (d0 d1 : Datum) :
    path_intersects_eraser r ep "text" [d0, d1] = textEraseHit r ep d0 := rfl

lemma pish_text (fm : Int → String → Int × Int) (pos tp : Pt) (t : String) (size : Int) :
    point_in_shape fm pos "text" [Datum.pt tp, Datum.txt t] size =
      some (text_hit fm pos tp t size) := rfl

lemma pish_rect (fm : Int → String → Int × Int) (pos c1 c2 : Pt) (size : Int) :
    point_in_shape fm pos "rect" [Datum.pt c1, Datum.pt c2] size =
      some (rect_hit pos c1 c2) := rfl

lemma pish_circle (fm : Int → String → Int × Int) (pos c1 c2 : Pt) (size : Int) :
    point_in_shape fm pos "circle" [Datum.pt c1, Datum.pt c2] size =
      some (circle_hit pos c1 c2) := rfl

lemma pish_fallthrough (fm : Int → String → Int × Int) (pos : Pt) (size : Int)
    (shapeType : String) (data : List Datum)
    (h1 : ¬(shapeType = "text" ∧ data.length = 2))
    (h2 : ¬(shapeType = "rect" ∧ data.length = 2))
    (h3 : ¬(shapeType = "circle" ∧ data.length = 2))
    (h4 : ¬((shapeType = "arrow" ∨ shapeType = "line") ∧ data.length = 2))
    (h5 : ¬(shapeType = "pen" ∧ 1 < data.length)) :
    point_in_shape fm pos shapeType data size = some false := by
  rw [point_in_shape.eq_def,
    if_neg (show ¬(shapeType = "text" ∧ data.length = 2) from h1),
    if_neg (show ¬(shapeType = "rect" ∧ data.length = 2) from h2),
    if_neg (show ¬(shapeType = "circle" ∧ data.length = 2) from h3),
    if_neg (show ¬((shapeType = "arrow" ∨ shapeType = "line") ∧ data.length = 2) from h4),
    if_neg (show ¬(shapeType = "pen" ∧ 1 < data.length) from h5)]

/-! ### Claim theorems -/

/-- C3: for all points `p` and segment endpoints `a`, `b`, the
point-to-segment distance function of the source (`_point_to_line_distance`,
and the identical-valued closure `point_to_segment_distance` of
`_erase_paths`) returns a value that is nonnegative, is zero exactly when
`p` lies on the closed segment from `a` to `b`, and in the degenerate case
`a = b` equals the Euclidean distance from `p` to `a`. -/
theorem C3_point_to_segment_distance_spec (p a b : Pt) :
    point_to_segment_distance p a b = point_to_line_distance p a b ∧
    0 ≤ point_to_line_distance p a b ∧
    (point_to_line_distance p a b = 0 ↔ onSegment p a b) ∧
    point_to_line_distance p a a = euclid_dist p a := by
  refine ⟨?_, Real.sqrt_nonneg _, ?_, ?_⟩
  · rw [point_to_segment_distance, point_to_line_distance, seg_dist_sq_eq_line_dist_sq]
  · rw [point_to_line_distance,
      Real.sqrt_eq_zero (by exact_mod_cast line_dist_sq_nonneg p a b)]
    rw [show ((line_dist_sq p a b : ℚ) : ℝ) = 0 ↔ line_dist_sq p a b = 0 from by exact_mod_cast Iff.rfl]
    exact line_dist_sq_eq_zero_iff p a b
  · rw [point_to_line_distance, euclid_dist]
    have : line_dist_sq p a a = (p.qx - a.qx) ^ 2 + (p.qy - a.qy) ^ 2 := by
      simp only [line_dist_sq]
      rw [if_pos (by ring)]
    rw [this]

/-- C9: erasing returns a subsequence of the input: whenever `_erase_paths`'
batch filter produces a result, the surviving records are identical records
of the input kept in their relative order, and nothing is added. -/
theorem C9_erase_sublist (r : ℚ) (ep : List Pt) (ps out : List ShapeRec)
    (h : erase_filter r ep ps = some out) : List.Sublist out ps := by
  induction ps generalizing out with
  | nil =>
    simp only [erase_filter, Option.some.injEq] at h
    rw [← h]
  | cons item rest ih =>
    rw [erase_filter] at h
    cases hb : path_intersects_eraser r ep item.kind item.data with
    | none => rw [hb] at h; simp at h
    | some b =>
      rw [hb] at h
      cases hrest : erase_filter r ep rest with
      | none => rw [hrest] at h; simp at h
      | some rest2 =>
        rw [hrest] at h
        cases b with
        | true =>
          simp at h
          subst h
          exact (ih rest2 hrest).cons item
        | false =>
          simp at h
          subst h
          exact (ih rest2 hrest).cons₂ item

/-- Witness for C9 at a concrete input: a far-away text record erased with
a path through its anchor yields the empty subsequence. -/
theorem C9_witness :
    List.Sublist ([] : List ShapeRec) [⟨"text", 0, 20, [Datum.pt ⟨100, 100⟩, Datum.txt "hi"]⟩] := by
  apply C9_erase_sublist 12 [⟨100, 100⟩] _ _
  have hpie : path_intersects_eraser 12 [⟨100, 100⟩] "text"
      [Datum.pt ⟨100, 100⟩, Datum.txt "hi"] = some true := by
    rw [pie_text_bridge]
    rw [show textEraseHit 12 [⟨100, 100⟩] (Datum.pt ⟨100, 100⟩) =
        some ([(⟨100, 100⟩ : Pt)].any fun e =>
          sqrtLe ((e.qx - (⟨100, 100⟩ : Pt).qx) ^ 2 + (e.qy - (⟨100, 100⟩ : Pt).qy) ^ 2)
            (12 + 30)) from rfl]
    simp only [List.any_cons, List.any_nil, Bool.or_false, Option.some.injEq]
    norm_num [sqrtLe, Pt.qx, Pt.qy]
  rw [erase_filter]
  dsimp only
  rw [hpie]
  rfl

/-- C7: an eraser stroke that, per the per-kind intersection tests of
`_erase_paths`, comes within the radius of no shape of the sequence leaves
the sequence exactly unchanged. -/
theorem C7_erase_noop (r : ℚ) (ep : List Pt) (ps : List ShapeRec)
    (h : ∀ item ∈ ps, path_intersects_eraser r ep item.kind item.data = some false) :
    erase_filter r ep ps = some ps := by
  induction ps with
  | nil => rfl
  | cons item rest ih =>
    have h1 := h item (List.mem_cons_self item rest)
    have h2 : ∀ it ∈ rest, path_intersects_eraser r ep it.kind it.data = some false :=
      fun it hit => h it (List.mem_cons_of_mem _ hit)
    rw [erase_filter, h1, ih h2]
    rfl

/-- Witness for C7 at a concrete input: an eraser point 100√2 away from a
text anchor (beyond radius 12 + 30) erases nothing. -/
theorem C7_witness :
    erase_filter 12 [⟨0, 0⟩] [⟨"text", 0, 20, [Datum.pt ⟨100, 100⟩, Datum.txt "hi"]⟩] =
      some [⟨"text", 0, 20, [Datum.pt ⟨100, 100⟩, Datum.txt "hi"]⟩] := by
  apply C7_erase_noop
  intro item hitem
  rw [List.mem_singleton] at hitem
  subst hitem
  show path_intersects_eraser 12 [⟨0, 0⟩] "text" [Datum.pt ⟨100, 100⟩, Datum.txt "hi"] = some false
  rw [pie_text_bridge]
  rw [show textEraseHit 12 [⟨0, 0⟩] (Datum.pt ⟨100, 100⟩) =
      some ([(⟨0, 0⟩ : Pt)].any fun e =>
        sqrtLe ((e.qx - (⟨100, 100⟩ : Pt).qx) ^ 2 + (e.qy - (⟨100, 100⟩ : Pt).qy) ^ 2)
          (12 + 30)) from rfl]
  simp only [List.any_cons, List.any_nil, Bool.or_false, Option.some.injEq]
  norm_num [sqrtLe, Pt.qx, Pt.qy]

/-- C10: `_point_in_shape` is total over malformed records: an unknown kind
tag, a two-endpoint or text kind whose payload is not of length 2, or a
freehand payload with fewer than two entries all fall through every branch
guard (which tests the kind and the payload length before touching any
element) and yield `False` without an exception. -/
theorem C10_point_in_shape_total (fm : Int → String → Int × Int) (pos : Pt)
    (size : Int) (shapeType : String) (data : List Datum) :
    (shapeType ∉ ["text", "rect", "circle", "arrow", "line", "pen"] →
      point_in_shape fm pos shapeType data size = some false) ∧
    ((shapeType = "rect" ∨ shapeType = "circle" ∨ shapeType = "arrow" ∨
        shapeType = "line" ∨ shapeType = "text") → data.length ≠ 2 →
      point_in_shape fm pos shapeType data size = some false) ∧
    (data.length ≤ 1 → point_in_shape fm pos "pen" data size = some false)
    := by
  refine ⟨?_, ?_, ?_⟩
  · intro h
    simp only [List.mem_cons, List.not_mem_nil, or_false, not_or] at h
    obtain ⟨h1, h2, h3, h4, h5, h6⟩ := h
    exact pish_fallthrough fm pos size shapeType data
      (fun hc => h1 hc.1) (fun hc => h2 hc.1) (fun hc => h3 hc.1)
      (fun hc => hc.1.elim h4 h5) (fun hc => h6 hc.1)
  · intro hkind hlen
    rcases hkind with h | h | h | h | h <;> subst h
    · exact pish_fallthrough fm pos size "rect" data
        (fun hc => absurd hc.1 (by decide)) (fun hc => hlen hc.2)
        (fun hc => absurd hc.1 (by decide))
        (fun hc => hc.1.elim (fun h => absurd h (by decide)) (fun h => absurd h (by decide)))
        (fun hc => absurd hc.1 (by decide))
    · exact pish_fallthrough fm pos size "circle" data
        (fun hc => absurd hc.1 (by decide)) (fun hc => absurd hc.1 (by decide))
        (fun hc => hlen hc.2)
        (fun hc => hc.1.elim (fun h => absurd h (by decide)) (fun h => absurd h (by decide)))
        (fun hc => absurd hc.1 (by decide))
    · exact pish_fallthrough fm pos size "arrow" data
        (fun hc => absurd hc.1 (by decide)) (fun hc => absurd hc.1 (by decide))
        (fun hc => absurd hc.1 (by decide)) (fun hc => hlen hc.2)
        (fun hc => absurd hc.1 (by decide))
    · exact pish_fallthrough fm pos size "line" data
        (fun hc => absurd hc.1 (by decide)) (fun hc => absurd hc.1 (by decide))
        (fun hc => absurd hc.1 (by decide)) (fun hc => hlen hc.2)
        (fun hc => absurd hc.1 (by decide))
    · exact pish_fallthrough fm pos size "text" data
        (fun hc => hlen hc.2) (fun hc => absurd hc.1 (by decide))
        (fun hc => absurd hc.1 (by decide))
        (fun hc => hc.1.elim (fun h => absurd h (by decide)) (fun h => absurd h (by decide)))
        (fun hc => absurd hc.1 (by decide))
  · intro hlen
    exact pish_fallthrough fm pos size "pen" data
      (fun hc => absurd hc.1 (by decide)) (fun hc => absurd hc.1 (by decide))
      (fun hc => absurd hc.1 (by decide))
      (fun hc => hc.1.elim (fun h => absurd h (by decide)) (fun h => absurd h (by decide)))
      (fun hc => by omega)

/-- Witness for C10 at concrete inputs: an unknown kind, a one-corner
rectangle and a one-point freehand path all report a miss. -/
theorem C10_witness :
    point_in_shape (fun _ _ => (0, 0)) ⟨0, 0⟩ "blob" [] 4 = some false ∧
    point_in_shape (fun _ _ => (0, 0)) ⟨0, 0⟩ "rect" [Datum.pt ⟨1, 1⟩] 4 = some false ∧
    point_in_shape (fun _ _ => (0, 0)) ⟨0, 0⟩ "pen" [Datum.pt ⟨1, 1⟩] 4 = some false := by
  refine ⟨?_, ?_, ?_⟩
  · exact (C10_point_in_shape_total (fun _ _ => (0, 0)) ⟨0, 0⟩ 4 "blob" []).1 (by decide)
  · exact (C10_point_in_shape_total (fun _ _ => (0, 0)) ⟨0, 0⟩ 4 "rect" [Datum.pt ⟨1, 1⟩]).2.1
      (Or.inl rfl) (by decide)
  · exact (C10_point_in_shape_total (fun _ _ => (0, 0)) ⟨0, 0⟩ 4 "pen" [Datum.pt ⟨1, 1⟩]).2.2
      (by decide)

/-- C4: pointer-up while Selecting: a normalized selection rectangle wider
and taller than 5 commits to Editing with that rectangle (in particular
the drag `(10,10) → (120,95)` enters Editing with rect `(10,10,110,85)`);
otherwise a hovered detected window's rectangle is adopted and the session
is window-bound; with no hovered window the session closes. -/
theorem C4_release_selecting_spec (startPos endPos : Pt) (hovered : Option (QRectI × Int)) :
    (5 < (get_selection_rect startPos endPos).width →
      5 < (get_selection_rect startPos endPos).height →
      release_selecting startPos endPos hovered =
        SelOutcome.editing (get_selection_rect startPos endPos)) ∧
    (¬(5 < (get_selection_rect startPos endPos).width ∧
        5 < (get_selection_rect startPos endPos).height) →
      ∀ wr wid, hovered = some (wr, wid) →
        release_selecting startPos endPos hovered =
          SelOutcome.windowBound ⟨wr.x1, wr.y1⟩ ⟨wr.x2, wr.y2⟩ wid) ∧
    (¬(5 < (get_selection_rect startPos endPos).width ∧
        5 < (get_selection_rect startPos endPos).height) →
      hovered = none → release_selecting startPos endPos hovered = SelOutcome.closed) ∧
    release_selecting ⟨10, 10⟩ ⟨120, 95⟩ hovered =
      SelOutcome.editing (QRectI.ofXYWH 10 10 110 85) := by
  refine ⟨?_, ?_, ?_, ?_⟩
  · intro hw hh
    rw [release_selecting.eq_def, if_pos ⟨hw, hh⟩]
  · intro hno wr wid heq
    subst heq
    rw [release_selecting.eq_def, if_neg hno]
  · intro hno heq
    subst heq
    rw [release_selecting.eq_def, if_neg hno]
  · rw [release_selecting.eq_def]
    rw [show get_selection_rect ⟨10, 10⟩ ⟨120, 95⟩ = QRectI.ofXYWH 10 10 110 85 from by decide]
    rw [if_pos (show 5 < (QRectI.ofXYWH 10 10 110 85).width ∧
      5 < (QRectI.ofXYWH 10 10 110 85).height from by decide)]

/-- Witness for C4 at concrete inputs: the scenario drag commits to
Editing; a 3×3 click with a hovered window adopts the window; the same
click with no window closes the session. -/
theorem C4_witness :
    release_selecting ⟨10, 10⟩ ⟨120, 95⟩ none = SelOutcome.editing (QRectI.ofXYWH 10 10 110 85) ∧
    release_selecting ⟨0, 0⟩ ⟨3, 3⟩ (some (⟨5, 6, 400, 300⟩, 42)) =
      SelOutcome.windowBound ⟨5, 6⟩ ⟨400, 300⟩ 42 ∧
    release_selecting ⟨0, 0⟩ ⟨3, 3⟩ none = SelOutcome.closed := by
  refine ⟨?_, ?_, ?_⟩
  · exact (C4_release_selecting_spec ⟨10, 10⟩ ⟨120, 95⟩ none).1 (by decide) (by decide)
  · exact (C4_release_selecting_spec ⟨0, 0⟩ ⟨3, 3⟩ _).2.1 (by decide) ⟨5, 6, 400, 300⟩ 42 rfl
  · exact (C4_release_selecting_spec ⟨0, 0⟩ ⟨3, 3⟩ none).2.2.1 (by decide) rfl

/-- C5 fails as stated: with a captured pixel width of 0 (logical size
100×100, current scale 1) the claimed contract adopts the average scale 2,
but `_sync_dpr_with_capture` also guards on `dpr_x <= 0 or dpr_y <= 0` and
leaves the scale at 1. -/
theorem C5_counterexample :
    sync_dpr_with_capture 0 400 100 100 1 = 1 ∧
    calibrate_spec 0 400 100 100 1 = 2 ∧
    sync_dpr_with_capture 0 400 100 100 1 ≠ calibrate_spec 0 400 100 100 1 := by
  have h1 : sync_dpr_with_capture 0 400 100 100 1 = 1 := by
    rw [sync_dpr_with_capture.eq_def]
    norm_num
  have h2 : calibrate_spec 0 400 100 100 1 = 2 := by
    rw [calibrate_spec.eq_def]
    norm_num
  exact ⟨h1, h2, by rw [h1, h2]; norm_num⟩

/-- C5 as amended: the calibration is additionally a no-op when either
computed ratio `pixel / logical` is nonpositive; in all other cases the
averaged scale is adopted exactly when it differs from the current scale
by more than 0.01. -/
theorem C5_amended_calibrate_spec (pw ph lw lh : Int) (d : ℚ) :
    (lw ≤ 0 ∨ lh ≤ 0 → sync_dpr_with_capture pw ph lw lh d = d) ∧
    (0 < lw → 0 < lh → ((pw : ℚ) / (lw : ℚ) ≤ 0 ∨ (ph : ℚ) / (lh : ℚ) ≤ 0) →
      sync_dpr_with_capture pw ph lw lh d = d) ∧
    (0 < lw → 0 < lh → 0 < (pw : ℚ) / (lw : ℚ) → 0 < (ph : ℚ) / (lh : ℚ) →
      sync_dpr_with_capture pw ph lw lh d =
        if 1 / 100 < |((pw : ℚ) / (lw : ℚ) + (ph : ℚ) / (lh : ℚ)) / 2 - d|
        then ((pw : ℚ) / (lw : ℚ) + (ph : ℚ) / (lh : ℚ)) / 2 else d) := by
  refine ⟨?_, ?_, ?_⟩
  · intro h
    rw [sync_dpr_with_capture.eq_def, if_pos h]
  · intro hlw hlh h
    rw [sync_dpr_with_capture.eq_def, if_neg (by omega), if_pos h]
  · intro hlw hlh hx hy
    rw [sync_dpr_with_capture.eq_def, if_neg (by omega),
      if_neg (by rw [not_or]; exact ⟨not_le.mpr hx, not_le.mpr hy⟩)]

/-- Witness for C5's amended claim at concrete inputs: a nonpositive
logical height, a zero pixel width, and a genuine recalibration from
scale 1 to scale 2. -/
theorem C5_witness :
    sync_dpr_with_capture 5 5 10 0 3 = 3 ∧
    sync_dpr_with_capture 0 400 100 100 1 = 1 ∧
    sync_dpr_with_capture 200 200 100 100 1 = 2 := by
  refine ⟨?_, ?_, ?_⟩
  · exact (C5_amended_calibrate_spec 5 5 10 0 3).1 (by norm_num)
  · exact (C5_amended_calibrate_spec 0 400 100 100 1).2.1 (by norm_num) (by norm_num)
      (by norm_num)
  · have h := (C5_amended_calibrate_spec 200 200 100 100 1).2.2 (by norm_num) (by norm_num)
      (by norm_num) (by norm_num)
    rw [h]
    norm_num

lemma shiftDatum_roundtrip (dx dy : Int) (d d2 : Datum)
    (h : shiftDatum dx dy d = some d2) : shiftDatum (-dx) (-dy) d2 = some d := by
  cases d with
  | txt s => simp [shiftDatum] at h
  | pt p =>
    simp only [shiftDatum, Option.some.injEq] at h
    subst h
    simp [shiftDatum, add_neg_cancel_right]

lemma mapM_shift_roundtrip (dx dy : Int) (l out : List Datum)
    (h : l.mapM (shiftDatum dx dy) = some out) :
    out.mapM (shiftDatum (-dx) (-dy)) = some l := by
  induction l generalizing out with
  | nil =>
    simp only [List.mapM_nil, Option.pure_def, Option.some.injEq] at h
    subst h
    rfl
  | cons d l ih =>
    rw [List.mapM_cons] at h
    cases hd : shiftDatum dx dy d with
    | none => rw [hd] at h; simp at h
    | some d2 =>
      rw [hd] at h
      cases hl : l.mapM (shiftDatum dx dy) with
      | none => rw [hl] at h; simp at h
      | some l2 =>
        rw [hl] at h
        simp at h
        subst h
        rw [List.mapM_cons, shiftDatum_roundtrip dx dy d d2 hd, ih l2 hl]
        rfl

/-- C6: for every shape record and drag delta, translating by `(dx, dy)`
and then by `(-dx, -dy)` restores every stored coordinate exactly
(whenever the first translation succeeds at all). -/
theorem C6_translate_roundtrip (shapeType : String) (data : List Datum) (dx dy : Int)
    (out : List Datum) (h : move_shape_data shapeType data dx dy = some out) :
    move_shape_data shapeType out (-dx) (-dy) = some data := by
  by_cases h1 : shapeType = "text" ∧ data.length = 2
  · obtain ⟨ht, hlen⟩ := h1
    rw [move_shape_data.eq_def, if_pos ⟨ht, hlen⟩] at h
    cases data with
    | nil => exact absurd hlen (by decide)
    | cons d0 rest =>
      cases d0 with
      | txt s => simp at h
      | pt p =>
        simp only [Option.some.injEq] at h
        subst h
        rw [move_shape_data.eq_def,
          if_pos (show shapeType = "text" ∧
            (Datum.pt ⟨p.x + dx, p.y + dy⟩ :: rest).length = 2 from ⟨ht, by simpa using hlen⟩)]
        simp [add_neg_cancel_right]
  · by_cases h2 : (shapeType = "rect" ∨ shapeType = "circle" ∨ shapeType = "arrow" ∨
        shapeType = "line") ∧ data.length = 2
    · rw [move_shape_data.eq_def, if_neg h1, if_pos h2] at h
      obtain ⟨hk, hlen⟩ := h2
      match data, hlen with
      | [Datum.pt p, Datum.pt q], _ =>
        simp only [Option.some.injEq] at h
        subst h
        rw [move_shape_data.eq_def,
          if_neg (show ¬(shapeType = "text" ∧ _) from fun hc =>
            by rcases hk with h | h | h | h <;> subst h <;> exact absurd hc.1 (by decide)),
          if_pos ⟨hk, rfl⟩]
        simp [add_neg_cancel_right]
      | [Datum.pt p, Datum.txt s], _ => simp at h
      | [Datum.txt s, d1], _ => simp at h
    · by_cases h3 : shapeType = "pen" ∧ 0 < data.length
      · obtain ⟨hk, hlen⟩ := h3
        rw [move_shape_data.eq_def, if_neg h1, if_neg h2, if_pos ⟨hk, hlen⟩] at h
        subst hk
        cases data with
        | nil => exact absurd hlen (by decide)
        | cons d0 rest =>
          have hout := mapM_shift_roundtrip dx dy _ _ h
          rw [List.mapM_cons] at h
          cases hd : shiftDatum dx dy d0 with
          | none => rw [hd] at h; simp at h
          | some d2 =>
            rw [hd] at h
            cases hl : rest.mapM (shiftDatum dx dy) with
            | none => rw [hl] at h; simp at h
            | some l2 =>
              rw [hl] at h
              simp at h
              subst h
              rw [move_shape_data.eq_def,
                if_neg (show ¬(("pen" : String) = "text" ∧ _) from fun hc => absurd hc.1 (by decide)),
                if_neg (show ¬((("pen" : String) = "rect" ∨ ("pen" : String) = "circle" ∨
                    ("pen" : String) = "arrow" ∨ ("pen" : String) = "line") ∧ _) from fun hc =>
                  by rcases hc.1 with h | h | h | h <;> exact absurd h (by decide)),
                if_pos (show ("pen" : String) = "pen" ∧ 0 < (d2 :: l2).length from
                  ⟨rfl, by simp⟩)]
              exact hout
      · rw [move_shape_data.eq_def, if_neg h1, if_neg h2, if_neg h3] at h
        simp only [Option.some.injEq] at h
        subst h
        rw [move_shape_data.eq_def, if_neg h1, if_neg h2, if_neg h3]

/-- Witness for C6 at a concrete input: a rectangle dragged by `(10, 20)`
and back. -/
theorem C6_witness :
    move_shape_data "rect" [Datum.pt ⟨1, 2⟩, Datum.pt ⟨3, 4⟩] 10 20 =
      some [Datum.pt ⟨11, 22⟩, Datum.pt ⟨13, 24⟩] ∧
    move_shape_data "rect" [Datum.pt ⟨11, 22⟩, Datum.pt ⟨13, 24⟩] (-10) (-20) =
      some [Datum.pt ⟨1, 2⟩, Datum.pt ⟨3, 4⟩] := by
  have h : move_shape_data "rect" [Datum.pt ⟨1, 2⟩, Datum.pt ⟨3, 4⟩] 10 20 =
      some [Datum.pt ⟨11, 22⟩, Datum.pt ⟨13, 24⟩] := by decide
  exact ⟨h, C6_translate_roundtrip "rect" [Datum.pt ⟨1, 2⟩, Datum.pt ⟨3, 4⟩] 10 20 _ h⟩

/-- C8: in text-editing mode, Enter commits exactly one text record
(anchor = the recorded click point, content = the accumulated string) if
and only if the accumulated string is non-empty, Escape discards the entry
and commits nothing, and the scenario of typing "hi" at `(30,30)` then
pressing Enter appends exactly `{anchor := (30,30), content := "hi"}`. -/
theorem C8_text_commit_spec (s : TextSession) (hs : s.editing = true) :
    ((key_press_text_editing Key.enter s).paths =
      if s.content = "" then s.paths
      else s.paths ++ [⟨"text", s.color, s.fontSize, [Datum.pt s.pos, Datum.txt s.content]⟩]) ∧
    (key_press_text_editing Key.escape s).paths = s.paths ∧
    (∀ (paths0 : List ShapeRec) (color0 fs0 : Int) (p0 : Pt) (ed0 : Bool) (c0 : String),
      (key_press_text_editing Key.enter
        (key_press_text_editing (Key.char "i" true)
          (key_press_text_editing (Key.char "h" true)
            (show_text_input ⟨30, 30⟩
              ⟨ed0, p0, c0, color0, fs0, paths0⟩)))).paths =
        (show_text_input ⟨30, 30⟩ ⟨ed0, p0, c0, color0, fs0, paths0⟩).paths ++
          [⟨"text", color0, fs0, [Datum.pt ⟨30, 30⟩, Datum.txt "hi"]⟩]) := by
  refine ⟨?_, rfl, ?_⟩
  · rw [key_press_text_editing, commit_text_editing]
    by_cases hc : s.content = ""
    · rw [if_pos hc, if_neg (fun hcc => hcc.2 hc)]
    · rw [if_neg hc, if_pos ⟨hs, hc⟩]
  · intro paths0 color0 fs0 p0 ed0 c0
    cases ed0 <;>
      simp [show_text_input, key_press_text_editing, commit_text_editing,
        show ("h" : String) ≠ "" from by decide, show ("i" : String) ≠ "" from by decide,
        show ("" : String) ++ "h" ++ "i" = "hi" from by decide,
        show ("hi" : String) ≠ "" from by decide]

/-- Witness for C8 at a concrete session: Enter on an active "hi" entry at
`(30,30)` appends exactly one text record; Escape appends nothing. -/
theorem C8_witness :
    (key_press_text_editing Key.enter ⟨true, ⟨30, 30⟩, "hi", 7, 20, []⟩).paths =
      [⟨"text", 7, 20, [Datum.pt ⟨30, 30⟩, Datum.txt "hi"]⟩] ∧
    (key_press_text_editing Key.escape ⟨true, ⟨30, 30⟩, "hi", 7, 20, []⟩).paths = [] := by
  have h := C8_text_commit_spec ⟨true, ⟨30, 30⟩, "hi", 7, 20, []⟩ rfl
  refine ⟨?_, h.2.1⟩
  rw [h.1, if_neg (by decide)]
  rfl

lemma c1_rect_hit (r : ℚ) (hr : 15 ≤ r) (ep : List Pt) (hmem : (⟨40, 35⟩ : Pt) ∈ ep) :
    rectEraseHit r ep ⟨20, 20⟩ ⟨60, 50⟩ = true := by
  rw [rectEraseHit, List.any_eq_true]
  refine ⟨((20 : ℚ), (20 : ℚ), (60 : ℚ), (20 : ℚ)), ?_, ?_⟩
  · norm_num [rectEraseEdges, QRectI.ofPoints]
  · rw [List.any_eq_true]
    refine ⟨⟨40, 35⟩, hmem, ?_⟩
    have hseg : seg_dist_sq (Pt.qx ⟨40, 35⟩) (Pt.qy ⟨40, 35⟩) 20 20 60 20 = 225 := by
      simp only [seg_dist_sq, Pt.qx, Pt.qy]
      rw [if_neg (by norm_num)]
      norm_num [min_def, max_def]
    rw [eraserSegHit, hseg, sqrtLe, decide_eq_true_eq]
    exact ⟨by linarith, by nlinarith⟩

/-- C1 fails as stated: with the rectangle `(20,20)-(60,50)` drawn, an
eraser stroke whose recorded path is the single point `(40,35)` and whose
radius 15 (stroke width 5) equals the distance to the nearest edge leaves
`drawing_paths` unchanged, because the pointer-release step only invokes
`_erase_paths` when the recorded path has more than one point; the second
conjunct shows the batch erase itself would have removed the rectangle for
this path and radius. -/
theorem C1_counterexample :
    release_drawing ⟨"eraser", 0, 5, [⟨40, 35⟩], some ⟨40, 35⟩,
      [⟨"rect", 0, 4, [Datum.pt ⟨20, 20⟩, Datum.pt ⟨60, 50⟩]⟩]⟩ =
      some [⟨"rect", 0, 4, [Datum.pt ⟨20, 20⟩, Datum.pt ⟨60, 50⟩]⟩] ∧
    erase_paths 5 [⟨40, 35⟩] [⟨"rect", 0, 4, [Datum.pt ⟨20, 20⟩, Datum.pt ⟨60, 50⟩]⟩] =
      some [] := by
  constructor
  · rfl
  · rw [erase_paths, erase_filter]
    dsimp only
    rw [pie_rect, c1_rect_hit ((5 * 3 : ℤ) : ℚ) (by norm_num) [⟨40, 35⟩]
      (List.mem_singleton.mpr rfl)]
    rfl

/-- C1 as amended: the release step requires the recorded eraser path to
hold more than one sample, so with the same location `(40,35)` recorded
twice (a pointer-move event at the same spot) and any stroke width whose
radius `3 * w` is at least the distance 15 to the rectangle's nearest
edge, pointer-release removes the rectangle from the shape sequence. -/
theorem C1_amended_eraser_release (w c k : Int) (hw : 15 ≤ w * 3) :
    release_drawing ⟨"eraser", 0, w, [⟨40, 35⟩, ⟨40, 35⟩], some ⟨40, 35⟩,
      [⟨"rect", c, k, [Datum.pt ⟨20, 20⟩, Datum.pt ⟨60, 50⟩]⟩]⟩ = some [] := by
  rw [release_drawing.eq_def]
  dsimp only
  rw [if_pos (show ("eraser" : String) = "eraser" ∧
    1 < ([⟨40, 35⟩, ⟨40, 35⟩] : List Pt).length from by exact ⟨rfl, by decide⟩)]
  rw [erase_paths, erase_filter]
  dsimp only
  rw [pie_rect, c1_rect_hit ((w * 3 : ℤ) : ℚ) (by exact_mod_cast hw) [⟨40, 35⟩, ⟨40, 35⟩]
    (List.mem_cons_self _ _)]
  rfl

/-- Witness for C1's amended claim: stroke width 5 (radius 15). -/
theorem C1_witness :
    release_drawing ⟨"eraser", 0, 5, [⟨40, 35⟩, ⟨40, 35⟩], some ⟨40, 35⟩,
      [⟨"rect", 0, 4, [Datum.pt ⟨20, 20⟩, Datum.pt ⟨60, 50⟩]⟩]⟩ = some [] :=
  C1_amended_eraser_release 5 0 4 (by norm_num)

lemma circle_hit_self (p : Pt) : circle_hit p p p = true := by
  have ha : circle_hit_a p p = 17 / 2 := by
    simp [circle_hit_a, QRectI.ofPoints, QRectI.normalized, QRectI.width]
    norm_num
  have hb : circle_hit_b p p = 17 / 2 := by
    simp [circle_hit_b, QRectI.ofPoints, QRectI.normalized, QRectI.height]
    norm_num
  have hcx : (QRectI.ofPoints p p).normalized.centerX = p.x := by
    simp only [QRectI.ofPoints, QRectI.normalized, QRectI.centerX, min_self, max_self]
    rw [show p.x + p.x = 2 * p.x from by ring, Int.mul_tdiv_cancel_left _ (by norm_num)]
  have hcy : (QRectI.ofPoints p p).normalized.centerY = p.y := by
    simp only [QRectI.ofPoints, QRectI.normalized, QRectI.centerY, min_self, max_self]
    rw [show p.y + p.y = 2 * p.y from by ring, Int.mul_tdiv_cancel_left _ (by norm_num)]
  simp only [circle_hit, ha, hb, hcx, hcy]
  rw [if_neg (by norm_num)]
  norm_num

/-- C2 fails as stated: a zero-area ellipse (both corners `(20,20)`) is hit
by `_point_in_shape` at its own corner, a zero-width rectangle (corners
`(20,20)` and `(20,50)`) is hit at `(20,35)`, and the eraser removes the
zero-area ellipse — Qt reports the width and height of a corner-coincident
`QRect` as 1, so the `a == 0 or b == 0` guards never see 0 there and such
shapes are not treated as always missing. -/
theorem C2_counterexample :
    point_in_shape (fun _ _ => (0, 0)) ⟨20, 20⟩ "circle"
      [Datum.pt ⟨20, 20⟩, Datum.pt ⟨20, 20⟩] 4 = some true ∧
    point_in_shape (fun _ _ => (0, 0)) ⟨20, 35⟩ "rect"
      [Datum.pt ⟨20, 20⟩, Datum.pt ⟨20, 50⟩] 4 = some true ∧
    erase_filter 12 [⟨20, 20⟩] [⟨"circle", 0, 4, [Datum.pt ⟨20, 20⟩, Datum.pt ⟨20, 20⟩]⟩] =
      some [] := by
  refine ⟨?_, by decide, ?_⟩
  · rw [pish_circle, circle_hit_self]
  · rw [erase_filter]
    dsimp only
    rw [pie_circle]
    have hcirc : circleEraseHit 12 [⟨20, 20⟩] ⟨20, 20⟩ ⟨20, 20⟩ = true := by
      simp only [circleEraseHit, QRectI.ofPoints, QRectI.width, QRectI.height,
        List.any_cons, List.any_nil, circleEraseCond, Bool.or_false, Bool.and_eq_true,
        decide_eq_true_eq]
      norm_num [sqrtLe, leSqrt, Pt.qx, Pt.qy, min_def, max_def]
    rw [hcirc]
    rfl

/-- C2 as amended: the division in both the hit-test and the erase ellipse
branch is protected — the hit-test half-extents `a`, `b` are always
positive (the normalized `QRect` of any two corners has width and height
at least 1, so the `a == 0 or b == 0` guard never even fires), and the
erase test's `radius_x > 0 and radius_y > 0` guard makes any ellipse whose
stored `QRect` has zero width or height unerasable.  But a rectangle or
ellipse whose two corners coincide is not treated as missing: its `QRect`
has width and height 1, and for instance the ellipse is always hit at its
own corner point. -/
theorem C2_amended_degenerate_guards (c1 c2 : Pt) :
    (0 < circle_hit_a c1 c2 ∧ 0 < circle_hit_b c1 c2) ∧
    (∀ (r : ℚ) (ep : List Pt),
      (QRectI.ofPoints c1 c2).width = 0 ∨ (QRectI.ofPoints c1 c2).height = 0 →
      path_intersects_eraser r ep "circle" [Datum.pt c1, Datum.pt c2] = some false) ∧
    (∀ (fm : Int → String → Int × Int) (size : Int),
      point_in_shape fm c1 "circle" [Datum.pt c1, Datum.pt c1] size = some true) := by
  refine ⟨⟨?_, ?_⟩, ?_, ?_⟩
  · have hw : 1 ≤ (QRectI.ofPoints c1 c2).normalized.width := by
      have := min_le_max (a := c1.x) (b := c2.x)
      simp only [QRectI.ofPoints, QRectI.normalized, QRectI.width]
      omega
    have hw2 : (1 : ℚ) ≤ ((QRectI.ofPoints c1 c2).normalized.width : ℚ) := by exact_mod_cast hw
    rw [circle_hit_a]
    linarith
  · have hh : 1 ≤ (QRectI.ofPoints c1 c2).normalized.height := by
      have := min_le_max (a := c1.y) (b := c2.y)
      simp only [QRectI.ofPoints, QRectI.normalized, QRectI.height]
      omega
    have hh2 : (1 : ℚ) ≤ ((QRectI.ofPoints c1 c2).normalized.height : ℚ) := by exact_mod_cast hh
    rw [circle_hit_b]
    linarith
  · intro r ep h
    rw [pie_circle, Option.some.injEq]
    simp only [circleEraseHit]
    rcases h with h | h
    · have h2 : ((QRectI.ofPoints c1 c2).width : ℚ) = 0 := by exact_mod_cast h
      rw [h2]
      simp
    · have h2 : ((QRectI.ofPoints c1 c2).height : ℚ) = 0 := by exact_mod_cast h
      rw [h2]
      simp
  · intro fm size
    rw [pish_circle, circle_hit_self]

/-- Witness for C2's amended claim: positive denominators for the corners
`(1,1)`, `(0,5)` (a stored zero-width rect), its ellipse unerasable, and
the corner-coincident ellipse at `(20,20)` hit at its own corner. -/
theorem C2_witness :
    (0 < circle_hit_a ⟨1, 1⟩ ⟨0, 5⟩ ∧ 0 < circle_hit_b ⟨1, 1⟩ ⟨0, 5⟩) ∧
    path_intersects_eraser 5 [⟨0, 0⟩] "circle" [Datum.pt ⟨1, 1⟩, Datum.pt ⟨0, 5⟩] =
      some false ∧
    point_in_shape (fun _ _ => (0, 0)) ⟨20, 20⟩ "circle"
      [Datum.pt ⟨20, 20⟩, Datum.pt ⟨20, 20⟩] 4 = some true := by
  have h := C2_amended_degenerate_guards ⟨1, 1⟩ ⟨0, 5⟩
  refine ⟨h.1, h.2.1 5 [⟨0, 0⟩] (Or.inl (by decide)), ?_⟩
  exact (C2_amended_degenerate_guards ⟨20, 20⟩ ⟨20, 20⟩).2.2 (fun _ _ => (0, 0)) 4
